import Mathlib

/-!
Verification of the Market Data Ingestion & Portfolio Recompute Engine
(`scripts/portfolio_automation.py`, `azure-functions/MyBlogSubscribers/weekly_job.py`).

Shallow embedding conventions:
* prices, percentages and wall-clock times are exact rationals (`ℚ`);
  Python's `round(x, 2)` becomes `round2`, `round(x)` becomes `round : ℚ → ℤ`;
* ISO calendar dates (`"YYYY-MM-DD"` strings in the source) are embedded as
  naturals `YYYYMMDD`; string equality and lexicographic order on the ISO shape
  coincide with equality and order on these naturals;
* a Python `dict` keyed by date is an insertion-ordered association list;
  assignment overwrites in place or appends at the end, as CPython does;
* fallible Python code is embedded in `Except String`; a raised exception is
  `.error msg`, and `ZeroDivisionError` is raised by the explicit `pyDiv`.
-/

namespace Engine

/-- Python `round(x, 2)`: round to two decimal places. -/
def round2 (x : ℚ) : ℚ := (round (x * 100) : ℤ) / 100

/-- Python division, which raises `ZeroDivisionError` on a zero denominator. -/
def pyDiv (a b : ℚ) : Except String ℚ :=
  if b = 0 then .error ("ZeroDivisionError") else .ok (a / b)

/-- The guarded percentage-change expression used throughout
`generate_master_from_alphavantage`:
`((cur / prev) - 1) * 100 if prev else 0.0`.
Python evaluates the truthiness of `prev` first, so the division is reached
only when `prev ≠ 0`. -/
def pctChange (cur prev : ℚ) : Except String ℚ :=
  if prev = 0 then .ok 0
  else match pyDiv cur prev with
    | .error e => .error e
    | .ok r => .ok ((r - 1) * 100)

/-- Lookup in a Python dict modelled as an association list. -/
def dictGet (d : List (ℕ × ℚ)) (k : ℕ) : Option ℚ :=
  (d.find? (fun p => p.1 = k)).map Prod.snd

/-- Python dict assignment `d[k] = v`: overwrite in place when the key is
present, append at the end otherwise. -/
def dictSet (d : List (ℕ × ℚ)) (k : ℕ) (v : ℚ) : List (ℕ × ℚ) :=
  if d.any (fun p => p.1 = k) then
    d.map (fun p => if p.1 = k then (k, v) else p)
  else d ++ [(k, v)]

/-- Python `d[k]`, raising `KeyError` when absent; `getOrRaise o e` embeds a
fallible access whose failure raises the exception message `e`. -/
def getOrRaise (o : Option α) (e : String) : Except String α :=
  match o with
  | some a => .ok a
  | none => .error e

/-- A provider quote: `{'date': ..., 'close': ..., 'source': ...}`. -/
structure Quote where
  date : ℕ
  close : ℚ
  source : String
deriving Repr, DecidableEq

/-- One element of `master.json`'s `stocks` list. -/
structure Stock where
  ticker : String
  name : String
  shares : ℚ
  prices : List (ℕ × ℚ)
  current_value : ℤ
  weekly_pct : ℚ
  total_pct : ℚ
deriving Repr, DecidableEq

/-- One entry of a benchmark's `history` list. -/
structure BenchEntry where
  date : ℕ
  close : ℚ
  weekly_pct : ℚ
  total_pct : ℚ
deriving Repr, DecidableEq

/-- One benchmark series: `{inception_reference, history}`. -/
structure Benchmark where
  inception_reference : ℚ
  history : List BenchEntry
deriving Repr, DecidableEq

/-- One entry of `portfolio_history`. -/
structure HistEntry where
  date : ℕ
  value : ℤ
  weekly_pct : ℚ
  total_pct : ℚ
deriving Repr, DecidableEq

/-- One entry of `normalized_chart`. -/
structure NormEntry where
  date : ℕ
  portfolio_value : ℤ
  genai_norm : ℚ
  spx_close : ℚ
  btc_close : ℚ
  spx_norm : ℚ
  btc_norm : ℚ
deriving Repr, DecidableEq

/-- The `meta` block of `master.json` (the portfolio name plays no role in the
engine's computations and is dropped). -/
structure Meta where
  inception_date : ℕ
  inception_value : ℚ
  current_date : ℕ
deriving Repr, DecidableEq

/-- The `portfolio_totals` block. -/
structure Totals where
  current_value : ℤ
  weekly_pct : ℚ
  total_pct : ℚ
deriving Repr, DecidableEq

/-- The root document `master.json`.  The repository's document has exactly
the two benchmarks `sp500` and `bitcoin` (the normalized chart hard-codes
both keys at lines 881-884), so the benchmarks dict is embedded as two named
fields. -/
structure Master where
  meta : Meta
  stocks : List Stock
  totals : Totals
  sp500 : Benchmark
  bitcoin : Benchmark
  portfolio_history : List HistEntry
  normalized_chart : List NormEntry
deriving Repr, DecidableEq

/-- Per-holding recompute, `portfolio_automation.py` lines 754-780: look up the
inception and prior prices in the holding's `prices` dict (a missing key is a
`KeyError`), apply the guarded weekly/total formulas, store the new close under
the evaluation date, and recompute `current_value = round(shares * close)`. -/
def updated_stock (inceptionDate prevDate newDate : ℕ) (s : Stock) (close : ℚ) :
    Except String Stock :=
  match getOrRaise (dictGet s.prices inceptionDate) "KeyError: inception_date" with
  | .error e => .error e
  | .ok inception_price =>
    match getOrRaise (dictGet s.prices prevDate) "KeyError: prev_date" with
    | .error e => .error e
    | .ok prior_price =>
      match pctChange close prior_price with
      | .error e => .error e
      | .ok weekly =>
        match pctChange close inception_price with
        | .error e => .error e
        | .ok total =>
          .ok { ticker := s.ticker
                name := s.name
                shares := s.shares
                prices := dictSet s.prices newDate (round2 close)
                current_value := round (s.shares * close)
                weekly_pct := round2 weekly
                total_pct := round2 total }

/-- Per-benchmark recompute, lines 850-869: previous close is `history[-1]`
(an `IndexError` on an empty history), guarded weekly/total formulas, and the
new entry is appended to the history. -/
def updated_benchmark (newDate : ℕ) (b : Benchmark) (close : ℚ) :
    Except String Benchmark :=
  match getOrRaise b.history.getLast? ("IndexError: history") with
  | .error e => .error e
  | .ok lastEntry =>
    match pctChange close lastEntry.close with
    | .error e => .error e
    | .ok weekly =>
      match pctChange close b.inception_reference with
      | .error e => .error e
      | .ok total =>
        .ok { inception_reference := b.inception_reference
              history := b.history ++
                [{ date := newDate
                   close := round2 close
                   weekly_pct := round2 weekly
                   total_pct := round2 total }] }

/-- The pure recompute of `generate_master_from_alphavantage`, lines 690-912,
after the fetch phase: given the previous document, the evaluation date, the
fetched close for each ticker (`pd`), and the benchmark closes, produce the
new document.  The normalized-chart divisions at lines 889 and 892-893 are the
unguarded `100 * x / ref` of the source. -/
def generate_master (m : Master) (newDate : ℕ) (pd : String → Option ℚ)
    (spxClose btcClose : ℚ) : Except String Master :=
  match getOrRaise m.portfolio_history.getLast? ("IndexError: portfolio_history") with
  | .error e => .error e
  | .ok prevHist =>
    match (m.stocks.mapM (fun s =>
        match getOrRaise (pd s.ticker) "KeyError: price_data" with
        | .error e => .error e
        | .ok c => updated_stock m.meta.inception_date m.meta.current_date newDate s c) :
        Except String (List Stock)) with
    | .error e => .error e
    | .ok updatedStocks =>
      let portfolioValue : ℤ := (updatedStocks.map (fun s => s.current_value)).sum
      match pctChange (portfolioValue : ℚ) ((prevHist.value : ℚ)) with
      | .error e => .error e
      | .ok portfolioWeekly =>
        match pctChange (portfolioValue : ℚ) m.meta.inception_value with
        | .error e => .error e
        | .ok portfolioTotal =>
          match updated_benchmark newDate m.sp500 spxClose with
          | .error e => .error e
          | .ok newSp =>
            match updated_benchmark newDate m.bitcoin btcClose with
            | .error e => .error e
            | .ok newBtc =>
              match getOrRaise newSp.history.getLast? ("IndexError: sp500") with
              | .error e => .error e
              | .ok spLast =>
                match getOrRaise newBtc.history.getLast? ("IndexError: bitcoin") with
                | .error e => .error e
                | .ok btcLast =>
                  match pyDiv (100 * (portfolioValue : ℚ)) m.meta.inception_value with
                  | .error e => .error e
                  | .ok g =>
                    match pyDiv (100 * spLast.close) m.sp500.inception_reference with
                    | .error e => .error e
                    | .ok sNorm =>
                      match pyDiv (100 * btcLast.close) m.bitcoin.inception_reference with
                      | .error e => .error e
                      | .ok bNorm =>
                        .ok { meta := { inception_date := m.meta.inception_date
                                        inception_value := m.meta.inception_value
                                        current_date := newDate }
                              stocks := updatedStocks
                              totals := { current_value := portfolioValue
                                          weekly_pct := round2 portfolioWeekly
                                          total_pct := round2 portfolioTotal }
                              sp500 := newSp
                              bitcoin := newBtc
                              portfolio_history := m.portfolio_history ++
                                [{ date := newDate
                                   value := portfolioValue
                                   weekly_pct := round2 portfolioWeekly
                                   total_pct := round2 portfolioTotal }]
                              normalized_chart := m.normalized_chart ++
                                [{ date := newDate
                                   portfolio_value := portfolioValue
                                   genai_norm := round2 g
                                   spx_close := spLast.close
                                   btc_close := btcLast.close
                                   spx_norm := round2 sNorm
                                   btc_norm := round2 bNorm }] }

/-- Content of a file on disk: a fully written document or a truncated /
partially written one. -/
inductive FileContent where
  | full (m : Master)
  | corrupt
deriving Repr, DecidableEq

/-- The slice of the filesystem the engine touches: the canonical
`master data/master.json`, its temporary sibling `master.tmp`, the archive
directory, and the legacy per-week copy. -/
structure FS where
  canonical : Option FileContent
  temp : Option FileContent
  archive : List (ℕ × Master)
  legacy : Option Master
deriving Repr, DecidableEq

/-- Failure injected into the primary save (lines 918-925). -/
inductive SaveFault where
  | ok
  | tempWriteFail
  | renameFail
deriving Repr, DecidableEq

/-- The atomic write of lines 914-925: write the document to the `.tmp`
sibling, then `temp_path.replace(master_path)`; on any exception the handler
unlinks the temp file (if present) and re-raises.  Returns the outcome, the
final filesystem, and the trace of intermediate filesystem states (one per
primitive step, in order). -/
def atomicSave (fs : FS) (doc : Master) (fault : SaveFault) :
    Except String Unit × FS × List FS :=
  match fault with
  | .tempWriteFail =>
      let s1 : FS := { fs with temp := some .corrupt }
      let s2 : FS := { s1 with temp := none }
      (.error ("write to temp failed"), s2, [s1, s2])
  | .renameFail =>
      let s1 : FS := { fs with temp := some (.full doc) }
      let s2 : FS := { s1 with temp := none }
      (.error ("rename failed"), s2, [s1, s2])
  | .ok =>
      let s1 : FS := { fs with temp := some (.full doc) }
      let s2 : FS := { fs with canonical := some (.full doc), temp := none }
      (.ok (), s2, [s1, s2])

/-- Failure injected into the whole persistence phase (lines 914-938). -/
inductive Fault where
  | ok
  | tempWriteFail
  | renameFail
  | archiveFail
  | legacyFail
deriving Repr, DecidableEq

/-- The persistence phase of `generate_master_from_alphavantage`,
lines 914-938: the guarded atomic save of the canonical document, then the
archive copy and the legacy per-week copy, both written with no exception
handler, so a failure in either propagates out of the run. -/
def persistAll (fs : FS) (doc : Master) (date : ℕ) (fault : Fault) :
    Except String Unit × FS :=
  let sf : SaveFault :=
    match fault with
    | .tempWriteFail => .tempWriteFail
    | .renameFail => .renameFail
    | _ => .ok
  match atomicSave fs doc sf with
  | (.error e, fs1, _) => (.error e, fs1)
  | (.ok _, fs1, _) =>
    if fault = .archiveFail then (.error ("archive write failed"), fs1)
    else
      let fs2 : FS := { fs1 with archive := fs1.archive ++ [(date, doc)] }
      if fault = .legacyFail then (.error ("legacy write failed"), fs2)
      else (.ok (), { fs2 with legacy := some doc })

/-- The results the environment would hand to each provider call for one
ticker, plus which API keys are configured.  `none` means that provider call
returns `None` (Unavailable); a configured key absent from the environment
means the provider is skipped entirely (lines 725, 732). -/
structure ProviderEnv where
  av1 : Option Quote
  av2 : Option Quote
  fhKey : Bool
  fh : Option Quote
  msKey : Bool
  ms : Option Quote
deriving Repr, DecidableEq

/-- The per-ticker failover chain of lines 709-744: Alpha Vantage, an Alpha
Vantage retry, Finnhub (if a key is configured), then Marketstack (if a key is
configured).  Returns the first quote obtained together with the list of
provider calls actually dispatched, in order. -/
def fetchStockChain (env : ProviderEnv) : Option Quote × List String :=
  match env.av1 with
  | some q => (some q, ["AlphaVantage"])
  | none =>
    match env.av2 with
    | some q => (some q, ["AlphaVantage", "AlphaVantage"])
    | none =>
      if env.fhKey then
        match env.fh with
        | some q => (some q, ["AlphaVantage", "AlphaVantage", "Finnhub"])
        | none =>
          if env.msKey then
            (env.ms, ["AlphaVantage", "AlphaVantage", "Finnhub", "Marketstack"])
          else (none, ["AlphaVantage", "AlphaVantage", "Finnhub"])
      else
        if env.msKey then (env.ms, ["AlphaVantage", "AlphaVantage", "Marketstack"])
        else (none, ["AlphaVantage", "AlphaVantage"])

/-- The fetch loop of lines 707-751: tickers are fetched one at a time in
snapshot order; a ticker for which every provider fails raises the fatal
`ValueError` immediately (line 744).  Returns the outcome (the price map as an
association list) and the list of tickers for which any fetch was attempted. -/
def fetchAllStocks (tickers : List String) (env : String → ProviderEnv) :
    Except String (List (String × Quote)) × List String :=
  match tickers with
  | [] => (.ok [], [])
  | t :: rest =>
    match (fetchStockChain (env t)).1 with
    | none => (.error ("Failed to fetch price for " ++ t ++ " from all sources."), [t])
    | some q =>
      match fetchAllStocks rest env with
      | (.error e, log) => (.error e, t :: log)
      | (.ok pd, log) => (.ok ((t, q) :: pd), t :: log)

/-- Provider results for the two benchmarks (lines 786-847): the S&P 500 is
fetched from Marketstack only (a missing key is itself fatal); bitcoin from
Alpha Vantage's crypto endpoint with a Finnhub crypto fallback. -/
structure BenchEnv where
  msKey : Bool
  spxMs : Option Quote
  btcAv : Option Quote
  fhKey : Bool
  btcFh : Option Quote
deriving Repr, DecidableEq

/-- The benchmark fetch of lines 794-847, for the repository's two configured
benchmarks. -/
def fetchBenchmarks (env : BenchEnv) : Except String (Quote × Quote) :=
  if env.msKey = false then .error ("MARKETSTACK_API_KEY required for S&P 500 Index retrieval")
  else
    match env.spxMs with
    | none => .error ("Failed to fetch S&P 500 from Marketstack.")
    | some spx =>
      match env.btcAv with
      | some b => .ok (spx, b)
      | none =>
        if env.fhKey then
          match env.btcFh with
          | some b => .ok (spx, b)
          | none => .error ("Failed to fetch BITCOIN crypto price from Alpha Vantage/Finnhub.")
        else .error ("Failed to fetch BITCOIN crypto price from Alpha Vantage/Finnhub.")

/-- Outcome of one engine run: the result, the tickers for which a quote fetch
was attempted (in order), and the final filesystem. -/
structure EngineResult where
  result : Except String Master
  fetched : List String
  fs : FS
deriving Repr

/-- The duplicate-period error message of line 698. -/
def dupMsg (d : ℕ) : String :=
  "Evaluation date " ++ toString d ++ " equals previous date. Cannot generate duplicate weekly update."

/-- One full run of `generate_master_from_alphavantage` (lines 678-938):
duplicate-period check, stock fetch loop, benchmark fetch, recompute, then
persistence. -/
def run_engine (fs : FS) (m : Master) (evalDate : ℕ) (env : String → ProviderEnv)
    (benv : BenchEnv) (fault : Fault) : EngineResult :=
  -- line 694 reads `portfolio_history[-1]` before the duplicate check of 697
  match getOrRaise m.portfolio_history.getLast? ("IndexError: portfolio_history") with
  | .error e => { result := .error e, fetched := [], fs := fs }
  | .ok _ =>
  if evalDate = m.meta.current_date then
    { result := .error (dupMsg evalDate), fetched := [], fs := fs }
  else
    match fetchAllStocks (m.stocks.map (fun s => s.ticker)) env with
    | (.error e, log) => { result := .error e, fetched := log, fs := fs }
    | (.ok pd, log) =>
      match fetchBenchmarks benv with
      | .error e => { result := .error e, fetched := log, fs := fs }
      | .ok (spx, btc) =>
        match generate_master m evalDate
            (fun t => ((pd.find? (fun p => p.1 = t)).map (fun p => p.2.close)))
            spx.close btc.close with
        | .error e => { result := .error e, fetched := log, fs := fs }
        | .ok nm =>
          match persistAll fs nm evalDate fault with
          | (.error e, fs1) => { result := .error e, fetched := log, fs := fs1 }
          | (.ok _, fs1) => { result := .ok nm, fetched := log, fs := fs1 }

/-- An exception as classified by `retry_with_backoff`
(`weekly_job.py` lines 51-65): `caught` is membership in the caught tuple
`(RequestException, ServiceRequestError, HttpResponseError, ConnectionError)`;
`networkErr` marks `(Timeout, RequestsConnectionError, ServiceRequestError)`;
`status` is the HTTP status code extracted from the exception (0 when none). -/
structure PyExc where
  caught : Bool
  networkErr : Bool
  status : ℕ
deriving Repr, DecidableEq

/-- The `is_retryable` classification of lines 55-65: network errors always,
otherwise HTTP 5xx or 429. -/
def isRetryable (e : PyExc) : Bool :=
  e.networkErr || (500 ≤ e.status || e.status = 429)

/-- The retry loop of `retry_with_backoff` (lines 43-87), with `fuel` the
number of retries still permitted (`max_retries - attempt`): call the wrapped
function; on a caught, retryable exception with attempts remaining, record a
sleep of the current delay, multiply the delay by the backoff factor and call
again; otherwise re-raise.  Returns the outcome and the list of sleeps
performed, in order. -/
def retryGo (call : ℕ → Except PyExc α) (factor : ℚ) :
    ℕ → ℕ → ℚ → Except PyExc α × List ℚ
  | fuel, attempt, delay =>
    match call attempt with
    | .ok a => (.ok a, [])
    | .error e =>
      match fuel with
      | 0 => (.error e, [])
      | fuel' + 1 =>
        if e.caught && isRetryable e then
          match retryGo call factor fuel' (attempt + 1) (delay * factor) with
          | (r, sleeps) => (r, delay :: sleeps)
        else (.error e, [])

/-- Entry point `retry_with_backoff(max_retries, initial_delay, backoff_factor)`
applied to a call: the delay starts at `initial_delay` and is multiplied by
`backoff_factor` after every sleep. -/
def retry_with_backoff (maxRetries : ℕ) (initialDelay backoffFactor : ℚ)
    (call : ℕ → Except PyExc α) : Except PyExc α × List ℚ :=
  retryGo call backoffFactor maxRetries 0 initialDelay

/-- The Finnhub pacing gate of `portfolio_automation.py` lines 600-613 (and
641-657), with wall-clock time explicit: given the timestamp of the last
Finnhub call, the current time, and the configured minimum interval, compute
the elapsed time, sleep the remaining delta when below the interval, and
update the timestamp to the (post-sleep) current time.  Returns the dispatch
time of the request and the new `last_finnhub_call` timestamp. -/
def rateLimitAcquire (lastCall now minInterval : ℚ) : ℚ × ℚ :=
  let elapsed := now - lastCall
  let dispatch := if elapsed < minInterval then now + (minInterval - elapsed) else now
  (dispatch, dispatch)

/-- Modelled from the spec: the inception seeding of the snapshot (external to
the engine — "a Portfolio Snapshot is created once at portfolio inception
(external, out of scope)") records the first `normalized_chart` entry at the
inception date, where each series stands at its own inception reference:
the portfolio at `inception_value` and each benchmark at its
`inception_reference`, normalized with the same `100 × current / reference`
formula the engine uses. -/
def inceptionNormEntry (d : ℕ) (inceptionValue spxRef btcRef : ℚ) : NormEntry :=
  { date := d
    portfolio_value := round inceptionValue
    genai_norm := round2 (100 * inceptionValue / inceptionValue)
    spx_close := spxRef
    btc_close := btcRef
    spx_norm := round2 (100 * spxRef / spxRef)
    btc_norm := round2 (100 * btcRef / btcRef) }

/-! ### Concrete instances

The spec's concrete scenario (§8): holding `AAPL`, inception price 150 on
2025-01-01, prior price 180 on 2025-06-01, 10 shares; the new fetch returns
close 198 dated 2025-06-08.  Benchmarks: S&P 500 with inception reference
5000 and previous close 5500, bitcoin with inception reference 100000 and
previous close 110000. -/

def stockEx : Stock :=
  { ticker := "AAPL", name := "Apple", shares := 10
    prices := [(20250101, 150), (20250601, 180)]
    current_value := 1800, weekly_pct := 20, total_pct := 20 }

def spEx : Benchmark :=
  { inception_reference := 5000
    history := [{ date := 20250101, close := 5000, weekly_pct := 0, total_pct := 0 },
                { date := 20250601, close := 5500, weekly_pct := 10, total_pct := 10 }] }

def btcEx : Benchmark :=
  { inception_reference := 100000
    history := [{ date := 20250101, close := 100000, weekly_pct := 0, total_pct := 0 },
                { date := 20250601, close := 110000, weekly_pct := 10, total_pct := 10 }] }

def mEx : Master :=
  { meta := { inception_date := 20250101, inception_value := 1500, current_date := 20250601 }
    stocks := [stockEx]
    totals := { current_value := 1800, weekly_pct := 20, total_pct := 20 }
    sp500 := spEx
    bitcoin := btcEx
    portfolio_history :=
      [{ date := 20250101, value := 1500, weekly_pct := 0, total_pct := 0 },
       { date := 20250601, value := 1800, weekly_pct := 20, total_pct := 20 }]
    normalized_chart :=
      [{ date := 20250101, portfolio_value := 1500, genai_norm := 100,
         spx_close := 5000, btc_close := 100000, spx_norm := 100, btc_norm := 100 },
       { date := 20250601, portfolio_value := 1800, genai_norm := 120,
         spx_close := 5500, btc_close := 110000, spx_norm := 110, btc_norm := 110 }] }

/-- The fetched close map of the concrete scenario. -/
def pdEx : String → Option ℚ := fun t => if t = "AAPL" then some 198 else none

/-- Provider environment in which Alpha Vantage answers every ticker at once. -/
def envEx : String → ProviderEnv := fun _ =>
  { av1 := some { date := 20250608, close := 198, source := "Alpha Vantage" }
    av2 := none, fhKey := true, fh := none, msKey := true, ms := none }

def benvEx : BenchEnv :=
  { msKey := true
    spxMs := some { date := 20250608, close := 5600, source := "Marketstack" }
    btcAv := some { date := 20250608, close := 115000, source := "Alpha Vantage (Crypto)" }
    fhKey := true, btcFh := none }

def fsEx : FS := { canonical := some (.full mEx), temp := none, archive := [], legacy := none }

/-- The quote dict built by the Finnhub adapter (lines 624-628): it stamps its
own provenance tag `'source': 'Finnhub'`. -/
def finnhubQuote (d : ℕ) (c : ℚ) : Quote := { date := d, close := c, source := "Finnhub" }

/-- The document produced by the recompute of the concrete scenario
(evaluation date 2025-06-08, AAPL 198, S&P 5600, BTC 115000). -/
def nmEx : Master :=
  { meta := { inception_date := 20250101, inception_value := 1500, current_date := 20250608 }
    stocks := [{ ticker := "AAPL", name := "Apple", shares := 10
                 prices := [(20250101, 150), (20250601, 180), (20250608, 198)]
                 current_value := 1980, weekly_pct := 10, total_pct := 32 }]
    totals := { current_value := 1980, weekly_pct := 10, total_pct := 32 }
    sp500 := { inception_reference := 5000
               history := [{ date := 20250101, close := 5000, weekly_pct := 0, total_pct := 0 },
                           { date := 20250601, close := 5500, weekly_pct := 10, total_pct := 10 },
                           { date := 20250608, close := 5600, weekly_pct := 91/50, total_pct := 12 }] }
    bitcoin := { inception_reference := 100000
                 history := [{ date := 20250101, close := 100000, weekly_pct := 0, total_pct := 0 },
                             { date := 20250601, close := 110000, weekly_pct := 10, total_pct := 10 },
                             { date := 20250608, close := 115000, weekly_pct := 91/20, total_pct := 15 }] }
    portfolio_history := [{ date := 20250101, value := 1500, weekly_pct := 0, total_pct := 0 },
                          { date := 20250601, value := 1800, weekly_pct := 20, total_pct := 20 },
                          { date := 20250608, value := 1980, weekly_pct := 10, total_pct := 32 }]
    normalized_chart := [{ date := 20250101, portfolio_value := 1500, genai_norm := 100,
                           spx_close := 5000, btc_close := 100000, spx_norm := 100, btc_norm := 100 },
                         { date := 20250601, portfolio_value := 1800, genai_norm := 120,
                           spx_close := 5500, btc_close := 110000, spx_norm := 110, btc_norm := 110 },
                         { date := 20250608, portfolio_value := 1980, genai_norm := 132,
                           spx_close := 5600, btc_close := 115000, spx_norm := 112, btc_norm := 115 }] }

/-- The document produced when the same snapshot is recomputed against the
*earlier* evaluation date 2025-01-01 (the inception date, already present in
every series): the duplicate check of line 697 only rejects equality with
`current_date`, so this run succeeds — rewriting the stored inception price in
place and appending out-of-order history entries. -/
def nmBad : Master :=
  { meta := { inception_date := 20250101, inception_value := 1500, current_date := 20250101 }
    stocks := [{ ticker := "AAPL", name := "Apple", shares := 10
                 prices := [(20250101, 198), (20250601, 180)]
                 current_value := 1980, weekly_pct := 10, total_pct := 32 }]
    totals := { current_value := 1980, weekly_pct := 10, total_pct := 32 }
    sp500 := { inception_reference := 5000
               history := [{ date := 20250101, close := 5000, weekly_pct := 0, total_pct := 0 },
                           { date := 20250601, close := 5500, weekly_pct := 10, total_pct := 10 },
                           { date := 20250101, close := 5600, weekly_pct := 91/50, total_pct := 12 }] }
    bitcoin := { inception_reference := 100000
                 history := [{ date := 20250101, close := 100000, weekly_pct := 0, total_pct := 0 },
                             { date := 20250601, close := 110000, weekly_pct := 10, total_pct := 10 },
                             { date := 20250101, close := 115000, weekly_pct := 91/20, total_pct := 15 }] }
    portfolio_history := [{ date := 20250101, value := 1500, weekly_pct := 0, total_pct := 0 },
                          { date := 20250601, value := 1800, weekly_pct := 20, total_pct := 20 },
                          { date := 20250101, value := 1980, weekly_pct := 10, total_pct := 32 }]
    normalized_chart := [{ date := 20250101, portfolio_value := 1500, genai_norm := 100,
                           spx_close := 5000, btc_close := 100000, spx_norm := 100, btc_norm := 100 },
                         { date := 20250601, portfolio_value := 1800, genai_norm := 120,
                           spx_close := 5500, btc_close := 110000, spx_norm := 110, btc_norm := 110 },
                         { date := 20250101, portfolio_value := 1980, genai_norm := 132,
                           spx_close := 5600, btc_close := 115000, spx_norm := 112, btc_norm := 115 }] }

/-- The concrete snapshot with a zero inception value. -/
def mZero : Master :=
  { mEx with meta := { inception_date := 20250101, inception_value := 0, current_date := 20250601 } }

/-! ### Helper lemmas -/

theorem pyDiv_ok {a b v : ℚ} (h : pyDiv a b = .ok v) : b ≠ 0 ∧ v = a / b := by
  unfold pyDiv at h
  by_cases hb : b = 0
  · simp [hb] at h
  · simp [hb] at h
    exact ⟨hb, h.symm⟩

theorem pctChange_zero (cur : ℚ) : pctChange cur 0 = .ok 0 := by
  simp [pctChange]

theorem pctChange_nonzero {prev : ℚ} (cur : ℚ) (h : prev ≠ 0) :
    pctChange cur prev = .ok ((cur / prev - 1) * 100) := by
  simp [pctChange, pyDiv, h]

theorem pctChange_ok (cur prev : ℚ) : ∃ v, pctChange cur prev = .ok v := by
  by_cases h : prev = 0
  · exact ⟨0, h ▸ pctChange_zero cur⟩
  · exact ⟨_, pctChange_nonzero cur h⟩

theorem round2_zero : round2 0 = 0 := by
  norm_num [round2, round_eq]

theorem round2_hundred : round2 100 = 100 := by
  norm_num [round2, round_eq]

/-- Success shape of the per-holding recompute, without nonzero-price
hypotheses: the two price lookups are the only failure points. -/
theorem updated_stock_shape {s : Stock} {idate pdate : ℕ} {ip pp : ℚ} (ndate : ℕ) (c : ℚ)
    (hip : dictGet s.prices idate = some ip) (hpp : dictGet s.prices pdate = some pp) :
    ∃ w t, pctChange c pp = .ok w ∧ pctChange c ip = .ok t ∧
      updated_stock idate pdate ndate s c =
        .ok { ticker := s.ticker, name := s.name, shares := s.shares
              prices := dictSet s.prices ndate (round2 c)
              current_value := round (s.shares * c)
              weekly_pct := round2 w, total_pct := round2 t } := by
  obtain ⟨w, hw⟩ := pctChange_ok c pp
  obtain ⟨t, ht⟩ := pctChange_ok c ip
  refine ⟨w, t, hw, ht, ?_⟩
  unfold updated_stock
  rw [hip, hpp]
  simp [getOrRaise, hw, ht]

/-- The fully explicit success equation when both denominators are nonzero. -/
theorem updated_stock_eq {s : Stock} {idate pdate : ℕ} {ip pp : ℚ} (ndate : ℕ) (c : ℚ)
    (hip : dictGet s.prices idate = some ip) (hpp : dictGet s.prices pdate = some pp)
    (hip0 : ip ≠ 0) (hpp0 : pp ≠ 0) :
    updated_stock idate pdate ndate s c =
      .ok { ticker := s.ticker, name := s.name, shares := s.shares
            prices := dictSet s.prices ndate (round2 c)
            current_value := round (s.shares * c)
            weekly_pct := round2 ((c / pp - 1) * 100)
            total_pct := round2 ((c / ip - 1) * 100) } := by
  obtain ⟨w, t, hw, ht, h⟩ := updated_stock_shape ndate c hip hpp
  rw [pctChange_nonzero c hpp0] at hw
  rw [pctChange_nonzero c hip0] at ht
  cases hw
  cases ht
  exact h

/-- Any field of a successful per-holding recompute. -/
theorem updated_stock_fields {s ns : Stock} {idate pdate ndate : ℕ} {c : ℚ}
    (h : updated_stock idate pdate ndate s c = .ok ns) :
    ns.prices = dictSet s.prices ndate (round2 c) ∧ ns.ticker = s.ticker ∧
    ns.shares = s.shares ∧ ns.current_value = round (s.shares * c) := by
  unfold updated_stock at h
  split at h
  · cases h
  split at h
  · cases h
  split at h
  · cases h
  split at h
  · cases h
  cases h
  exact ⟨rfl, rfl, rfl, rfl⟩

/-- Success shape of the per-benchmark recompute. -/
theorem updated_benchmark_shape {b : Benchmark} {le : BenchEntry} (ndate : ℕ) (c : ℚ)
    (hl : b.history.getLast? = some le) :
    ∃ w t, pctChange c le.close = .ok w ∧ pctChange c b.inception_reference = .ok t ∧
      updated_benchmark ndate b c =
        .ok { inception_reference := b.inception_reference
              history := b.history ++
                [{ date := ndate, close := round2 c
                   weekly_pct := round2 w, total_pct := round2 t }] } := by
  obtain ⟨w, hw⟩ := pctChange_ok c le.close
  obtain ⟨t, ht⟩ := pctChange_ok c b.inception_reference
  refine ⟨w, t, hw, ht, ?_⟩
  unfold updated_benchmark
  rw [hl]
  simp [getOrRaise, hw, ht]

/-- A successful benchmark recompute appends exactly one entry. -/
theorem updated_benchmark_fields {b nb : Benchmark} {ndate : ℕ} {c : ℚ}
    (h : updated_benchmark ndate b c = .ok nb) :
    nb.inception_reference = b.inception_reference ∧
    ∃ e : BenchEntry, e.date = ndate ∧ e.close = round2 c ∧
      nb.history = b.history ++ [e] := by
  unfold updated_benchmark at h
  split at h
  · cases h
  split at h
  · cases h
  split at h
  · cases h
  cases h
  exact ⟨rfl, _, rfl, rfl, rfl⟩

theorem getOrRaise_ok {o : Option α} {e : String} {v : α} (h : getOrRaise o e = .ok v) :
    o = some v := by
  cases o with
  | none => cases h
  | some a => cases h; rfl

/-- Everything a successful recompute pins down about the shape of the new
document: the meta block, the elementwise origin of the stocks list, the
one-entry appends to the three history lists and the normalized chart, the
stored values of the appended normalized entry, and the nonzeroness of the
three inception references (forced by the unguarded divisions). -/
theorem generate_master_spec {m nm : Master} {d : ℕ} {pd : String → Option ℚ} {a b : ℚ}
    (h : generate_master m d pd a b = .ok nm) :
    nm.meta = { inception_date := m.meta.inception_date
                inception_value := m.meta.inception_value, current_date := d } ∧
    (m.stocks.mapM (fun s =>
        match getOrRaise (pd s.ticker) "KeyError: price_data" with
        | .error e => .error e
        | .ok c => updated_stock m.meta.inception_date m.meta.current_date d s c) :
        Except String (List Stock)) = .ok nm.stocks ∧
    (∃ e : HistEntry, e.date = d ∧ e.value = nm.totals.current_value ∧
        nm.portfolio_history = m.portfolio_history ++ [e]) ∧
    nm.sp500.inception_reference = m.sp500.inception_reference ∧
    nm.bitcoin.inception_reference = m.bitcoin.inception_reference ∧
    (∃ e : BenchEntry, e.date = d ∧ e.close = round2 a ∧
        nm.sp500.history = m.sp500.history ++ [e]) ∧
    (∃ e : BenchEntry, e.date = d ∧ e.close = round2 b ∧
        nm.bitcoin.history = m.bitcoin.history ++ [e]) ∧
    (∃ e : NormEntry, e.date = d ∧
        e.portfolio_value = nm.totals.current_value ∧
        e.genai_norm = round2 (100 * (nm.totals.current_value : ℚ) / m.meta.inception_value) ∧
        e.spx_close = round2 a ∧ e.btc_close = round2 b ∧
        e.spx_norm = round2 (100 * round2 a / m.sp500.inception_reference) ∧
        e.btc_norm = round2 (100 * round2 b / m.bitcoin.inception_reference) ∧
        nm.normalized_chart = m.normalized_chart ++ [e]) ∧
    m.meta.inception_value ≠ 0 ∧ m.sp500.inception_reference ≠ 0 ∧
    m.bitcoin.inception_reference ≠ 0 := by
  unfold generate_master at h
  split at h
  · cases h
  rename_i prevHist hPrev
  split at h
  · cases h
  rename_i us hUs
  dsimp only at h
  split at h
  · cases h
  rename_i pw hPw
  split at h
  · cases h
  rename_i pt hPt
  split at h
  · cases h
  rename_i nsp hSp
  split at h
  · cases h
  rename_i nbtc hBtc
  split at h
  · cases h
  rename_i spL hSpL
  split at h
  · cases h
  rename_i btcL hBtcL
  split at h
  · cases h
  rename_i g hG
  split at h
  · cases h
  rename_i sn hSn
  split at h
  · cases h
  rename_i bn hBn
  cases h
  obtain ⟨hSpRef, espx, hespxd, hespxc, hespxh⟩ := updated_benchmark_fields hSp
  obtain ⟨hBtcRef, ebtc, hebtcd, hebtcc, hebtch⟩ := updated_benchmark_fields hBtc
  have hSpLast : spL = espx := by
    have := getOrRaise_ok hSpL
    rw [hespxh, List.getLast?_concat] at this
    exact (Option.some_inj.mp this).symm
  have hBtcLast : btcL = ebtc := by
    have := getOrRaise_ok hBtcL
    rw [hebtch, List.getLast?_concat] at this
    exact (Option.some_inj.mp this).symm
  obtain ⟨hIv0, hgv⟩ := pyDiv_ok hG
  obtain ⟨hSpRef0, hsnv⟩ := pyDiv_ok hSn
  obtain ⟨hBtcRef0, hbnv⟩ := pyDiv_ok hBn
  refine ⟨rfl, hUs, ⟨_, rfl, rfl, rfl⟩, hSpRef, hBtcRef,
    ⟨espx, hespxd, hespxc, hespxh⟩, ⟨ebtc, hebtcd, hebtcc, hebtch⟩,
    ⟨_, rfl, rfl, ?_, ?_, ?_, ?_, ?_, rfl⟩, hIv0, hSpRef0, hBtcRef0⟩
  · rw [hgv]
  · rw [hSpLast, hespxc]
  · rw [hBtcLast, hebtcc]
  · rw [hsnv, hSpLast, hespxc]
  · rw [hbnv, hBtcLast, hebtcc]

/-- Monadic map over `Except` succeeds exactly elementwise. -/
theorem mapM_ok_forall2 {ε α β : Type} (f : α → Except ε β) :
    ∀ (l : List α) (l' : List β), l.mapM f = .ok l' →
      List.Forall₂ (fun a b => f a = .ok b) l l' := by
  intro l
  induction l with
  | nil =>
    intro l' h
    simp only [List.mapM_nil, pure, Except.pure] at h
    cases h
    exact List.Forall₂.nil
  | cons a as ih =>
    intro l' h
    rw [List.mapM_cons] at h
    rcases ha : f a with e | b <;> rw [ha] at h <;>
      simp only [bind, Except.bind, pure, Except.pure] at h
    · cases h
    rcases has : as.mapM f with e | bs <;> rw [has] at h
    · cases h
    cases h
    exact List.Forall₂.cons ha (ih bs has)

/-- If any listed ticker's full provider chain comes up empty, the fetch loop
raises rather than returning a price map. -/
theorem fetchAllStocks_error (env : String → ProviderEnv) :
    ∀ (tickers : List String) (t : String), t ∈ tickers →
      (fetchStockChain (env t)).1 = none →
      ∃ e, (fetchAllStocks tickers env).1 = .error e := by
  intro tickers
  induction tickers with
  | nil => intro t ht; cases ht
  | cons t' rest ih =>
    intro t ht hchain
    rcases hc : (fetchStockChain (env t')).1 with _ | q
    · exact ⟨_, by rw [fetchAllStocks, hc]⟩
    · have htr : t ∈ rest := by
        rcases List.mem_cons.mp ht with rfl | htr
        · rw [hchain] at hc; cases hc
        · exact htr
      obtain ⟨e, he⟩ := ih t htr hchain
      refine ⟨e, ?_⟩
      rw [fetchAllStocks, hc]
      rcases hr : fetchAllStocks rest env with ⟨res, log⟩
      rw [hr] at he
      cases res with
      | error e' => cases he; rfl
      | ok pd => cases he

/-- The sleeps performed by the retry loop are always an initial segment of
the geometric schedule `delay × factor^i`, with at most `fuel` sleeps. -/
theorem retryGo_sleeps {α : Type} (call : ℕ → Except PyExc α) (factor : ℚ) :
    ∀ (fuel attempt : ℕ) (delay : ℚ),
      ∃ n ≤ fuel, (retryGo call factor fuel attempt delay).2 =
        (List.range n).map (fun i => delay * factor ^ i) := by
  intro fuel
  induction fuel with
  | zero =>
    intro attempt delay
    refine ⟨0, le_refl 0, ?_⟩
    rw [retryGo]
    rcases call attempt with e | a <;> simp
  | succ fuel' ih =>
    intro attempt delay
    rw [retryGo]
    rcases hc : call attempt with e | a
    · by_cases hr : e.caught && isRetryable e
      · obtain ⟨n, hn, hs⟩ := ih (attempt + 1) (delay * factor)
        refine ⟨n + 1, Nat.succ_le_succ hn, ?_⟩
        rcases hgo : retryGo call factor fuel' (attempt + 1) (delay * factor) with ⟨r, sleeps⟩
        rw [hgo] at hs
        simp only [hr, if_true, hgo, hs, List.range_succ_eq_map, List.map_cons,
          List.map_map]
        congr 1
        · rw [pow_zero, mul_one]
        · refine List.map_congr_left ?_
          intro i _
          simp only [Function.comp_apply, pow_succ]
          ring
      · refine ⟨0, Nat.zero_le _, ?_⟩
        simp [hr]
    · exact ⟨0, Nat.zero_le _, by simp⟩

/-- Evaluation of the concrete scenario's recompute. -/
theorem gen_ok_ex : generate_master mEx 20250608 pdEx 5600 115000 = .ok nmEx := by
  norm_num [generate_master, updated_stock, updated_benchmark, getOrRaise, dictGet, dictSet,
    pctChange, pyDiv, round2, mEx, stockEx, spEx, btcEx, pdEx, nmEx, List.find?,
    List.mapM, List.mapM.loop, List.getLast?, round_eq]

/-- A full engine run against the *earlier* evaluation date 2025-01-01
succeeds (the duplicate check only rejects equality with `current_date`) and
persists `nmBad`. -/
theorem run_bad_ex : run_engine fsEx mEx 20250101 envEx benvEx .ok =
    { result := .ok nmBad, fetched := ["AAPL"]
      fs := { canonical := some (.full nmBad), temp := none
              archive := [(20250101, nmBad)], legacy := some nmBad } } := by
  norm_num [run_engine, fetchAllStocks, fetchStockChain, fetchBenchmarks, persistAll,
    atomicSave, generate_master, updated_stock, updated_benchmark, getOrRaise, dictGet,
    dictSet, pctChange, pyDiv, round2, mEx, stockEx, spEx, btcEx, nmBad, envEx, benvEx,
    fsEx, dupMsg, List.find?, List.mapM, List.mapM.loop, List.getLast?, round_eq]
  rfl

/-- A full engine run in which the primary atomic save succeeds and the
archive write then fails: the error propagates out of the run while the
canonical file already holds the new document. -/
theorem run_archive_ex : run_engine fsEx mEx 20250608 envEx benvEx .archiveFail =
    { result := .error ("archive write failed"), fetched := ["AAPL"]
      fs := { canonical := some (.full nmEx), temp := none
              archive := [], legacy := none } } := by
  norm_num [run_engine, fetchAllStocks, fetchStockChain, fetchBenchmarks, persistAll,
    atomicSave, generate_master, updated_stock, updated_benchmark, getOrRaise, dictGet,
    dictSet, pctChange, pyDiv, round2, mEx, stockEx, spEx, btcEx, nmEx, envEx, benvEx,
    fsEx, dupMsg, List.find?, List.mapM, List.mapM.loop, List.getLast?, round_eq]

/-- Appending a strictly later element preserves strict sortedness. -/
theorem pairwise_append_lt {l : List ℕ} {d : ℕ} (hl : l.Pairwise (· < ·))
    (hd : ∀ x ∈ l, x < d) : (l ++ [d]).Pairwise (· < ·) := by
  rw [List.pairwise_append]
  refine ⟨hl, List.pairwise_singleton _ _, ?_⟩
  intro x hx y hy
  rw [List.mem_singleton] at hy
  subst hy
  exact hd x hx

/-- Assigning a key absent from the dict is a pure append. -/
theorem dictSet_fresh {dl : List (ℕ × ℚ)} {k : ℕ} (h : ∀ p ∈ dl, p.1 ≠ k) (v : ℚ) :
    dictSet dl k v = dl ++ [(k, v)] := by
  unfold dictSet
  have hc : dl.any (fun p => p.1 = k) = false := by
    rw [List.any_eq_false]
    intro p hp
    simpa using h p hp
  rw [hc]
  simp

/-! ### Claims -/

/-- C1: for every holding recomputed with a fresh close, the stored metrics
follow the per-holding formulas — `weekly_pct = round2((close/prior − 1)·100)`
with the prior price read from the snapshot's previous `current_date`,
`total_pct = round2((close/inception − 1)·100)`, and
`current_value = round(shares · close)`; on the spec's concrete instance
(inception 150, prior 180, 10 shares, close 198) this yields 10.00, 32.00
and 1980. -/
theorem C1_holding_metrics :
    (∀ (idate pdate ndate : ℕ) (s : Stock) (close ip pp : ℚ),
      dictGet s.prices idate = some ip →
      dictGet s.prices pdate = some pp →
      ip ≠ 0 → pp ≠ 0 →
      ∃ ns, updated_stock idate pdate ndate s close = .ok ns ∧
        ns.weekly_pct = round2 ((close / pp - 1) * 100) ∧
        ns.total_pct = round2 ((close / ip - 1) * 100) ∧
        ns.current_value = round (s.shares * close)) ∧
    (∃ ns, updated_stock 20250101 20250601 20250608 stockEx 198 = .ok ns ∧
      ns.weekly_pct = 10 ∧ ns.total_pct = 32 ∧ ns.current_value = 1980) := by
  constructor
  · intro idate pdate ndate s close ip pp hip hpp hip0 hpp0
    exact ⟨_, updated_stock_eq ndate close hip hpp hip0 hpp0, rfl, rfl, rfl⟩
  · refine ⟨{ ticker := "AAPL", name := "Apple", shares := 10
              prices := [(20250101, 150), (20250601, 180), (20250608, 198)]
              current_value := 1980, weekly_pct := 10, total_pct := 32 },
            ?_, rfl, rfl, rfl⟩
    norm_num [updated_stock, getOrRaise, dictGet, dictSet, pctChange, pyDiv, round2,
      stockEx, List.find?, round_eq]

theorem C1_holding_metrics_witness :
    ∃ ns, updated_stock 20250101 20250601 20250608 stockEx 198 = .ok ns ∧
      ns.weekly_pct = round2 ((198 / 180 - 1) * 100) ∧
      ns.total_pct = round2 ((198 / 150 - 1) * 100) ∧
      ns.current_value = round (stockEx.shares * 198) :=
  C1_holding_metrics.1 20250101 20250601 20250608 stockEx 198 150 180
    (by decide) (by decide) (by norm_num) (by norm_num)

/-- C2: the primary save writes the full document to a temporary sibling and
renames it over the canonical path; on any injected failure the temp file is
removed and the canonical content is exactly what it was before the call, and
at no intermediate step does the canonical path hold anything but the old or
the new full document. -/
theorem C2_atomic_save (fs : FS) (doc : Master) (fault : SaveFault) :
    (∀ s ∈ (atomicSave fs doc fault).2.2,
        s.canonical = fs.canonical ∨ s.canonical = some (.full doc)) ∧
    (∀ e, (atomicSave fs doc fault).1 = .error e →
        (atomicSave fs doc fault).2.1.canonical = fs.canonical ∧
        (atomicSave fs doc fault).2.1.temp = none) ∧
    (fault = .ok →
        (atomicSave fs doc fault).1 = .ok () ∧
        (atomicSave fs doc fault).2.1.canonical = some (.full doc) ∧
        (atomicSave fs doc fault).2.1.temp = none ∧
        (atomicSave fs doc fault).2.2 =
          [{ fs with temp := some (.full doc) },
           { fs with canonical := some (.full doc), temp := none }]) := by
  cases fault <;> refine ⟨?_, ?_, ?_⟩ <;> simp [atomicSave]

theorem C2_atomic_save_witness :
    (atomicSave fsEx mEx .renameFail).2.1.canonical = fsEx.canonical ∧
    (atomicSave fsEx mEx .renameFail).2.1.temp = none :=
  (C2_atomic_save fsEx mEx .renameFail).2.1 ("rename failed") rfl

/-- C3: a recompute whose evaluation date equals the snapshot's
`current_date` raises the duplicate-period error before any quote is fetched
and before any write: the fetch log is empty and the filesystem is returned
untouched. -/
theorem C3_duplicate_period (fs : FS) (m : Master) (env : String → ProviderEnv)
    (benv : BenchEnv) (fault : Fault) (h : m.portfolio_history ≠ []) :
    run_engine fs m m.meta.current_date env benv fault =
      { result := .error (dupMsg m.meta.current_date), fetched := [], fs := fs } := by
  rw [run_engine]
  rcases hl : m.portfolio_history.getLast? with _ | le
  · rw [List.getLast?_eq_none_iff] at hl
    exact absurd hl h
  · simp [getOrRaise]

theorem C3_duplicate_period_witness :
    run_engine fsEx mEx mEx.meta.current_date envEx benvEx .ok =
      { result := .error (dupMsg mEx.meta.current_date), fetched := [], fs := fsEx } :=
  C3_duplicate_period fsEx mEx envEx benvEx .ok (by decide)

/-- C4 (counterexample): a full engine run against the evaluation date
2025-01-01 — an *earlier* date already recorded everywhere — succeeds,
rewrites the stored inception price of the holding in place (150 becomes
198), and leaves the benchmark and portfolio histories no longer
chronologically ordered: the claim's "for every successful recompute run"
fails.  Only equality with `current_date` is rejected (line 697). -/
theorem C4_counterexample :
    (run_engine fsEx mEx 20250101 envEx benvEx .ok).result = .ok nmBad ∧
    dictGet stockEx.prices 20250101 = some 150 ∧
    nmBad.stocks.map (fun s => dictGet s.prices 20250101) = [some 198] ∧
    ¬ (nmBad.sp500.history.map (fun e => e.date)).Pairwise (· < ·) ∧
    ¬ (nmBad.portfolio_history.map (fun e => e.date)).Pairwise (· < ·) := by
  refine ⟨by rw [run_bad_ex], ?_, ?_, ?_, ?_⟩ <;> decide

/-- C4 (amended): every successful recompute appends exactly one entry at the
end of `portfolio_history`, each benchmark's `history`, and
`normalized_chart`, leaving all pre-existing entries unchanged; *provided the
evaluation date is strictly later than every recorded date*, the lists remain
chronologically ordered and every holding's `prices` mapping is extended by
pure append (no existing date entry rewritten); and two successive successful
recomputes produce a `portfolio_history` of length N+2 whose first N entries
are the original ones. -/
theorem C4_append_only (m : Master) (d : ℕ) (pd : String → Option ℚ) (a b : ℚ)
    (nm : Master) (h : generate_master m d pd a b = .ok nm) :
    ((∃ e : HistEntry, e.date = d ∧ nm.portfolio_history = m.portfolio_history ++ [e]) ∧
     (∃ e : BenchEntry, e.date = d ∧ nm.sp500.history = m.sp500.history ++ [e]) ∧
     (∃ e : BenchEntry, e.date = d ∧ nm.bitcoin.history = m.bitcoin.history ++ [e]) ∧
     (∃ e : NormEntry, e.date = d ∧ nm.normalized_chart = m.normalized_chart ++ [e])) ∧
    ((m.portfolio_history.map (fun e => e.date)).Pairwise (· < ·) →
      (∀ x ∈ m.portfolio_history.map (fun e => e.date), x < d) →
      (nm.portfolio_history.map (fun e => e.date)).Pairwise (· < ·)) ∧
    ((m.sp500.history.map (fun e => e.date)).Pairwise (· < ·) →
      (∀ x ∈ m.sp500.history.map (fun e => e.date), x < d) →
      (nm.sp500.history.map (fun e => e.date)).Pairwise (· < ·)) ∧
    ((m.bitcoin.history.map (fun e => e.date)).Pairwise (· < ·) →
      (∀ x ∈ m.bitcoin.history.map (fun e => e.date), x < d) →
      (nm.bitcoin.history.map (fun e => e.date)).Pairwise (· < ·)) ∧
    ((m.normalized_chart.map (fun e => e.date)).Pairwise (· < ·) →
      (∀ x ∈ m.normalized_chart.map (fun e => e.date), x < d) →
      (nm.normalized_chart.map (fun e => e.date)).Pairwise (· < ·)) ∧
    List.Forall₂ (fun s ns => (∀ p ∈ s.prices, p.1 ≠ d) →
      ∃ v, ns.prices = s.prices ++ [(d, v)]) m.stocks nm.stocks ∧
    (∀ (d2 : ℕ) (pd2 : String → Option ℚ) (a2 b2 : ℚ) (nm2 : Master),
      generate_master nm d2 pd2 a2 b2 = .ok nm2 →
      nm2.portfolio_history.length = m.portfolio_history.length + 2 ∧
      nm2.portfolio_history.take m.portfolio_history.length = m.portfolio_history) := by
  obtain ⟨hMeta, hStocks, ⟨eh, ehd, ehv, ehl⟩, _, _, ⟨es, esd, esc, esl⟩,
    ⟨eb, ebd, ebc, ebl⟩, ⟨en, endd, _, _, _, _, _, _, enl⟩, _, _, _⟩ :=
    generate_master_spec h
  refine ⟨⟨⟨eh, ehd, ehl⟩, ⟨es, esd, esl⟩, ⟨eb, ebd, ebl⟩, ⟨en, endd, enl⟩⟩,
    ?_, ?_, ?_, ?_, ?_, ?_⟩
  · intro hs hlt
    rw [ehl, List.map_append, List.map_singleton, ehd]
    exact pairwise_append_lt hs hlt
  · intro hs hlt
    rw [esl, List.map_append, List.map_singleton, esd]
    exact pairwise_append_lt hs hlt
  · intro hs hlt
    rw [ebl, List.map_append, List.map_singleton, ebd]
    exact pairwise_append_lt hs hlt
  · intro hs hlt
    rw [enl, List.map_append, List.map_singleton, endd]
    exact pairwise_append_lt hs hlt
  · have hf := mapM_ok_forall2 _ _ _ hStocks
    refine hf.imp ?_
    intro s ns hsns hfresh
    rcases hpd : pd s.ticker with _ | c <;> rw [hpd] at hsns
    · simp [getOrRaise] at hsns
    · simp only [getOrRaise] at hsns
      obtain ⟨hprices, -, -, -⟩ := updated_stock_fields hsns
      exact ⟨round2 c, by rw [hprices, dictSet_fresh hfresh]⟩
  · intro d2 pd2 a2 b2 nm2 h2
    obtain ⟨-, -, ⟨eh2, -, -, ehl2⟩, -, -, -, -, -, -, -, -⟩ := generate_master_spec h2
    rw [ehl2, ehl]
    constructor
    · simp
    · rw [List.append_assoc]
      exact List.take_left _ _

theorem C4_append_only_witness :
    (nmEx.portfolio_history.map (fun e => e.date)).Pairwise (· < ·) ∧
    ∃ e : HistEntry, e.date = 20250608 ∧
      nmEx.portfolio_history = mEx.portfolio_history ++ [e] := by
  have h := C4_append_only mEx 20250608 pdEx 5600 115000 nmEx gen_ok_ex
  exact ⟨h.2.1 (by decide) (by decide), h.1.1⟩

/-- C5 (counterexample): in a run where the primary atomic save has already
succeeded (the canonical path holds the new document, whose history is one
entry longer), a failure of the archive write is *raised* — the run ends in
an error instead of completing successfully, contradicting the claimed
logged-warning behaviour.  Lines 927-938 have no exception handler. -/
theorem C5_counterexample :
    (run_engine fsEx mEx 20250608 envEx benvEx .archiveFail).result =
      .error ("archive write failed") ∧
    (run_engine fsEx mEx 20250608 envEx benvEx .archiveFail).fs.canonical =
      some (.full nmEx) ∧
    nmEx.portfolio_history.length = mEx.portfolio_history.length + 1 := by
  refine ⟨by rw [run_archive_ex], by rw [run_archive_ex], by decide⟩

/-- C5 (amended): a failure while writing the archival date-stamped copy or
the legacy per-period copy propagates out of the persistence phase (the run
fails with that error); the canonical document, however, already holds the
new snapshot, and the temp file is gone. -/
theorem C5_archive_fatal (fs : FS) (doc : Master) (date : ℕ) :
    persistAll fs doc date .archiveFail =
      (.error ("archive write failed"),
        { fs with canonical := some (.full doc), temp := none }) ∧
    persistAll fs doc date .legacyFail =
      (.error ("legacy write failed"),
        { fs with canonical := some (.full doc), temp := none,
                  archive := fs.archive ++ [(date, doc)] }) := by
  constructor <;> simp [persistAll, atomicSave]

/-- The provider environment in which every provider comes up empty. -/
def envFail : String → ProviderEnv := fun _ =>
  { av1 := none, av2 := none, fhKey := true, fh := none, msKey := true, ms := none }

/-- C6: in the per-ticker failover chain, an Unavailable answer from Alpha
Vantage (both attempts) makes the chain take Finnhub's quote, whose stored
provenance tag is `"Finnhub"`, and Marketstack is never called; and when
every provider in the chain fails for a tracked ticker, the whole run aborts
with an error, leaving the filesystem untouched. -/
theorem C6_failover :
    (∀ (env : ProviderEnv) (d : ℕ) (c : ℚ),
      env.av1 = none → env.av2 = none → env.fhKey = true →
      env.fh = some (finnhubQuote d c) →
      fetchStockChain env = (some (finnhubQuote d c),
        ["AlphaVantage", "AlphaVantage", "Finnhub"]) ∧
      (finnhubQuote d c).source = "Finnhub" ∧
      "Marketstack" ∉ (fetchStockChain env).2) ∧
    (∀ (env : ProviderEnv) (q : Quote), env.av1 = some q →
      fetchStockChain env = (some q, ["AlphaVantage"])) ∧
    (∀ (fs : FS) (m : Master) (evalDate : ℕ) (env : String → ProviderEnv)
      (benv : BenchEnv) (fault : Fault) (t : String),
      t ∈ m.stocks.map (fun s => s.ticker) →
      (fetchStockChain (env t)).1 = none →
      evalDate ≠ m.meta.current_date →
      (∃ e, (run_engine fs m evalDate env benv fault).result = .error e) ∧
      (run_engine fs m evalDate env benv fault).fs = fs) := by
  refine ⟨?_, ?_, ?_⟩
  case refine_2 =>
    intro env q h
    simp [fetchStockChain, h]
  · intro env d c h1 h2 h3 h4
    have hchain : fetchStockChain env =
        (some (finnhubQuote d c), ["AlphaVantage", "AlphaVantage", "Finnhub"]) := by
      unfold fetchStockChain
      rw [h1, h2, h3, h4]
      simp
    refine ⟨hchain, rfl, ?_⟩
    simp [hchain]
  · intro fs m evalDate env benv fault t hmem hchain hne
    rcases hl : m.portfolio_history.getLast? with _ | le
    · rw [run_engine, hl]
      exact ⟨⟨_, rfl⟩, rfl⟩
    · rw [run_engine, hl]
      simp only [getOrRaise]
      rw [if_neg hne]
      obtain ⟨e, he⟩ := fetchAllStocks_error env _ t hmem hchain
      rcases hfa : fetchAllStocks (m.stocks.map (fun s => s.ticker)) env with ⟨res, log⟩
      rw [hfa] at he
      rw [hfa]
      cases res with
      | error e' => exact ⟨⟨e', rfl⟩, rfl⟩
      | ok pd => cases he

theorem C6_failover_witness :
    fetchStockChain { av1 := none, av2 := none, fhKey := true
                      fh := some (finnhubQuote 20250608 100), msKey := true, ms := none } =
      (some (finnhubQuote 20250608 100), ["AlphaVantage", "AlphaVantage", "Finnhub"]) ∧
    fetchStockChain (envEx ("AAPL")) =
      (some { date := 20250608, close := 198, source := "Alpha Vantage" },
        ["AlphaVantage"]) ∧
    (∃ e, (run_engine fsEx mEx 20250608 envFail benvEx .ok).result = .error e) ∧
    (run_engine fsEx mEx 20250608 envFail benvEx .ok).fs = fsEx := by
  have h1 := C6_failover.1
    { av1 := none, av2 := none, fhKey := true
      fh := some (finnhubQuote 20250608 100), msKey := true, ms := none }
    20250608 100 rfl rfl rfl rfl
  have h2 := C6_failover.2.1 (envEx ("AAPL"))
    { date := 20250608, close := 198, source := "Alpha Vantage" } rfl
  have h3 := C6_failover.2.2 fsEx mEx 20250608 envFail benvEx .ok ("AAPL")
    (by decide) rfl (by decide)
  exact ⟨h1.1, h2, h3.1, h3.2⟩

/-- C7: the retry/backoff wrapper sleeps `initial_delay × backoff_factor^attempt`
before each retry (so its sleep list is always an initial segment of the
geometric schedule, with at most `max_retries` sleeps); under the default
policy (3 retries, 1 s, factor 2) an always-retryable failure produces the
delays 1 s, 2 s, 4 s before the exception is re-raised; and a non-retryable
failure is re-raised immediately with no sleeps. -/
theorem C7_retry_backoff (α : Type) :
    (∀ (call : ℕ → Except PyExc α) (mr : ℕ) (d0 f : ℚ),
      ∃ n ≤ mr, (retry_with_backoff mr d0 f call).2 =
        (List.range n).map (fun i => d0 * f ^ i)) ∧
    (∀ (e : PyExc) (call : ℕ → Except PyExc α),
      (e.caught && isRetryable e) = true →
      (∀ i, call i = .error e) →
      retry_with_backoff 3 1 2 call = (.error e, [1, 2, 4])) ∧
    (∀ (call : ℕ → Except PyExc α) (e : PyExc) (mr : ℕ) (d0 f : ℚ),
      call 0 = .error e → (e.caught && isRetryable e) = false →
      retry_with_backoff mr d0 f call = (.error e, [])) := by
  refine ⟨?_, ?_, ?_⟩
  · intro call mr d0 f
    exact retryGo_sleeps call f mr 0 d0
  · intro e call hr hcall
    unfold retry_with_backoff
    norm_num [retryGo, hcall, hr]
  · intro call e mr d0 f hc hr
    unfold retry_with_backoff
    cases mr with
    | zero => simp [retryGo, hc]
    | succ mr' => simp [retryGo, hc, hr]

theorem C7_retry_backoff_witness :
    retry_with_backoff 3 1 2
        (fun _ => .error ⟨true, true, 0⟩ : ℕ → Except PyExc Unit) =
      (.error (⟨true, true, 0⟩ : PyExc), [1, 2, 4]) :=
  (C7_retry_backoff Unit).2.1 ⟨true, true, 0⟩ _ (by decide) (fun _ => rfl)

/-- The pacing gate never dispatches earlier than one minimum interval after
the recorded last-call timestamp, and records the dispatch time as the new
timestamp. -/
theorem rateLimit_bound (lastCall now minInterval : ℚ) :
    lastCall + minInterval ≤ (rateLimitAcquire lastCall now minInterval).1 ∧
    (rateLimitAcquire lastCall now minInterval).2 =
      (rateLimitAcquire lastCall now minInterval).1 := by
  unfold rateLimitAcquire
  dsimp only
  constructor
  · split_ifs with h
    · linarith
    · push_neg at h
      linarith
  · rfl

/-- C8: the rate limiter computes the elapsed time since the last-call
timestamp, sleeps the remaining delta when it is below the configured minimum
interval, and updates the timestamp to the dispatch time; hence a second call
made 3 s after the first, under a 12 s minimum interval, dispatches exactly
at first + 12 s, and in general two consecutive dispatches through the gate
are at least one minimum interval apart. -/
theorem C8_rate_limiter :
    (∀ lastCall now minInterval : ℚ,
      lastCall + minInterval ≤ (rateLimitAcquire lastCall now minInterval).1 ∧
      (rateLimitAcquire lastCall now minInterval).2 =
        (rateLimitAcquire lastCall now minInterval).1) ∧
    (∀ t : ℚ, rateLimitAcquire t (t + 3) 12 = (t + 12, t + 12)) ∧
    (∀ lastCall n1 n2 minInterval : ℚ,
      minInterval ≤
        (rateLimitAcquire (rateLimitAcquire lastCall n1 minInterval).2 n2 minInterval).1 -
          (rateLimitAcquire lastCall n1 minInterval).1) := by
  refine ⟨rateLimit_bound, ?_, ?_⟩
  · intro t
    unfold rateLimitAcquire
    dsimp only
    rw [if_pos (by linarith)]
    rw [Prod.ext_iff]
    constructor <;> dsimp only <;> ring
  · intro lastCall n1 n2 minInterval
    have h1 := (rateLimit_bound lastCall n1 minInterval).2
    have h2 := (rateLimit_bound (rateLimitAcquire lastCall n1 minInterval).2 n2 minInterval).1
    rw [h1] at h2 ⊢
    linarith

/-- C9: every normalized-chart value written by the recompute is
`round2(100 × current / inception_reference)` — the portfolio entry against
`inception_value`, each benchmark against its own stored close and
`inception_reference`; the first recorded chart entry survives every
recompute unchanged; and the inception seeding (modelled from the spec, where
each series starts at its own reference) makes that first entry exactly 100
whenever the references are nonzero. -/
theorem C9_normalized (m : Master) (d : ℕ) (pd : String → Option ℚ) (a b : ℚ)
    (nm : Master) (h : generate_master m d pd a b = .ok nm) :
    (∃ e : NormEntry, nm.normalized_chart = m.normalized_chart ++ [e] ∧
      e.portfolio_value = nm.totals.current_value ∧
      e.genai_norm = round2 (100 * (nm.totals.current_value : ℚ) / m.meta.inception_value) ∧
      e.spx_norm = round2 (100 * e.spx_close / m.sp500.inception_reference) ∧
      e.btc_norm = round2 (100 * e.btc_close / m.bitcoin.inception_reference)) ∧
    (∀ e0, m.normalized_chart.head? = some e0 → nm.normalized_chart.head? = some e0) ∧
    (∀ (d0 : ℕ) (iv sr br : ℚ), iv ≠ 0 → sr ≠ 0 → br ≠ 0 →
      (inceptionNormEntry d0 iv sr br).genai_norm = 100 ∧
      (inceptionNormEntry d0 iv sr br).spx_norm = 100 ∧
      (inceptionNormEntry d0 iv sr br).btc_norm = 100) := by
  obtain ⟨-, -, -, -, -, -, -,
    ⟨en, -, henv, heng, hesc, hebc, hesn, hebn, henl⟩, -, -, -⟩ :=
    generate_master_spec h
  refine ⟨⟨en, henl, henv, heng, ?_, ?_⟩, ?_, ?_⟩
  · rw [hesn, hesc]
  · rw [hebn, hebc]
  · intro e0 h0
    rcases hc : m.normalized_chart with _ | ⟨x, rest⟩
    · rw [hc] at h0
      cases h0
    · rw [hc] at h0
      rw [henl, hc, List.cons_append]
      simpa using h0
  · intro d0 iv sr br hiv hsr hbr
    have h1 : 100 * iv / iv = 100 := by field_simp
    have h2 : 100 * sr / sr = 100 := by field_simp
    have h3 : 100 * br / br = 100 := by field_simp
    unfold inceptionNormEntry
    rw [h1, h2, h3, round2_hundred]
    exact ⟨rfl, rfl, rfl⟩

theorem C9_normalized_witness :
    nmEx.normalized_chart.head? =
      some { date := 20250101, portfolio_value := 1500, genai_norm := 100,
             spx_close := 5000, btc_close := 100000, spx_norm := 100, btc_norm := 100 } ∧
    (inceptionNormEntry 20250101 1500 5000 100000).genai_norm = 100 := by
  have h := C9_normalized mEx 20250608 pdEx 5600 115000 nmEx gen_ok_ex
  exact ⟨h.2.1 _ (by decide),
    (h.2.2 20250101 1500 5000 100000 (by norm_num) (by norm_num) (by norm_num)).1⟩

/-- C10 (counterexample): a snapshot whose inception value is zero makes the
recompute raise `ZeroDivisionError` — the normalized-chart division at line
889 is unguarded — so "recompute never fails on a zero denominator" is
false, even though every pct computation before it was guarded. -/
theorem C10_counterexample :
    generate_master mZero 20250608 pdEx 5600 115000 = .error ("ZeroDivisionError") ∧
    mZero.meta.inception_value = 0 := by
  constructor
  · norm_num [generate_master, updated_stock, updated_benchmark, getOrRaise, dictGet,
      dictSet, pctChange, pyDiv, round2, mZero, mEx, stockEx, spEx, btcEx, pdEx,
      List.find?, List.mapM, List.mapM.loop, List.getLast?, round_eq]
  · rfl

/-- A holding whose recorded prior and inception prices are both zero, used
to witness the guarded zero-denominator paths. -/
def stockZ : Stock :=
  { ticker := "Z", name := "Zero", shares := 1
    prices := [(10, 0), (20, 0)]
    current_value := 0, weekly_pct := 0, total_pct := 0 }

/-- C10 (amended): every weekly/total percentage computation in the recompute
is division-guarded — a zero prior price, inception price, previous portfolio
value, inception value, benchmark previous close or benchmark
inception_reference makes the corresponding pct 0.0 without any error — but
the normalized-chart divisions by `inception_value` and the benchmarks'
`inception_reference` (lines 889, 892-893) are unguarded, so a recompute over
a snapshot with a zero inception value can never succeed. -/
theorem C10_division_guards :
    (∀ cur : ℚ, pctChange cur 0 = .ok 0) ∧
    (∀ (idate pdate ndate : ℕ) (s : Stock) (c ip : ℚ),
      dictGet s.prices idate = some ip → dictGet s.prices pdate = some 0 →
      ∃ ns, updated_stock idate pdate ndate s c = .ok ns ∧ ns.weekly_pct = 0) ∧
    (∀ (idate pdate ndate : ℕ) (s : Stock) (c pp : ℚ),
      dictGet s.prices idate = some 0 → dictGet s.prices pdate = some pp →
      ∃ ns, updated_stock idate pdate ndate s c = .ok ns ∧ ns.total_pct = 0) ∧
    (∀ (ndate : ℕ) (b : Benchmark) (c : ℚ) (le : BenchEntry),
      b.history.getLast? = some le → le.close = 0 → b.inception_reference = 0 →
      ∃ nb, updated_benchmark ndate b c = .ok nb ∧
        ∃ e : BenchEntry, nb.history = b.history ++ [e] ∧
          e.weekly_pct = 0 ∧ e.total_pct = 0) ∧
    (∀ (m : Master) (d : ℕ) (pd : String → Option ℚ) (a b : ℚ),
      m.meta.inception_value = 0 → ∀ nm, generate_master m d pd a b ≠ .ok nm) := by
  refine ⟨pctChange_zero, ?_, ?_, ?_, ?_⟩
  · intro idate pdate ndate s c ip hip hpp
    obtain ⟨w, t, hw, ht, hs⟩ := updated_stock_shape ndate c hip hpp
    rw [pctChange_zero] at hw
    cases hw
    exact ⟨_, hs, round2_zero⟩
  · intro idate pdate ndate s c pp hip hpp
    obtain ⟨w, t, hw, ht, hs⟩ := updated_stock_shape ndate c hip hpp
    rw [pctChange_zero] at ht
    cases ht
    exact ⟨_, hs, round2_zero⟩
  · intro ndate b c le hl hlc href
    obtain ⟨w, t, hw, ht, hb⟩ := updated_benchmark_shape ndate c hl
    rw [hlc, pctChange_zero] at hw
    rw [href, pctChange_zero] at ht
    cases hw
    cases ht
    exact ⟨_, hb, _, rfl, round2_zero, round2_zero⟩
  · intro m d pd a b hiv nm h
    obtain ⟨-, -, -, -, -, -, -, -, hiv0, -, -⟩ := generate_master_spec h
    exact hiv0 hiv

theorem C10_division_guards_witness :
    pctChange 7 0 = .ok 0 ∧
    (∃ ns, updated_stock 10 20 30 stockZ 7 = .ok ns ∧ ns.weekly_pct = 0) := by
  refine ⟨C10_division_guards.1 7, ?_⟩
  exact C10_division_guards.2.1 10 20 30 stockZ 7 0 (by decide) (by decide)

end Engine
